import Mathlib

/-!
Shallow embedding of the hotel room booking service's persistent booking
store (`src/storage.rs` and `src/storage/room_booking.rs`).

The Rust store keeps a `HashMap<u32, RoomBooking>` behind a `Mutex`.  We
model the map as an association list with the usual map semantics
(`getB`, `insertB`, in-place update `setStatusAt`), machine integers as
`Nat` with an explicit `% 2 ^ 32` at the one place where `u32` overflow
matters (identity allocation in `create`), and each effect outcome the
code branches on (lock acquisition, file creation, file write, encode)
as an explicit parameter.  Fallible operations return `Except`/`Option`
exactly as the source returns `Result`/`Option`.
-/

namespace Booking

/-- Mirrors `BookingStatus` in `room_booking.rs`: the allowed values for
the status of a booking. -/
inductive BookingStatus where
  | Confirmed
  | Complete
  | Cancelled
deriving DecidableEq, Repr

/-- Mirrors `RoomBooking` in `room_booking.rs`.  `u32`/`u8` fields are
carried as `Nat` (no arithmetic is ever performed on them); dates are
opaque strings. -/
structure RoomBooking where
  booking_id : Option Nat
  customer_id : Nat
  room_type_id : Nat
  check_in_date : String
  check_out_date : String
  status : Option BookingStatus
deriving DecidableEq, Repr

/-- Mirrors `RoomBooking::set_booking_id`. -/
def RoomBooking.set_booking_id (b : RoomBooking) (booking_id : Nat) : RoomBooking :=
  { b with booking_id := some booking_id }

/-- Mirrors `RoomBooking::set_status`. -/
def RoomBooking.set_status (b : RoomBooking) (booking_status : BookingStatus) : RoomBooking :=
  { b with status := some booking_status }

/-- The booking map `HashMap<u32, RoomBooking>`, modelled as an
association list. -/
abbrev BookingList := List (Nat × RoomBooking)

/-- One past the largest `u32` value: `2 ^ 32 = 4294967296`. -/
def UMAX : Nat := 4294967296

/-- Lookup, as `HashMap::get` / `HashMap::get_mut`. -/
def getB : BookingList → Nat → Option RoomBooking
  | [], _ => none
  | p :: rest, k => if p.1 = k then some p.2 else getB rest k

/-- Insertion, as `HashMap::insert`: replaces the entry at the key if present,
otherwise adds a new entry. -/
def insertB : BookingList → Nat → RoomBooking → BookingList
  | [], k, v => [(k, v)]
  | p :: rest, k, v => if p.1 = k then (k, v) :: rest else p :: insertB rest k v

/-- In-place mutation performed by `storage::status`: `get_mut` followed
by `set_status` on the entry found at the key. -/
def setStatusAt : BookingList → Nat → BookingStatus → BookingList
  | [], _, _ => []
  | p :: rest, k, st => if p.1 = k then (p.1, p.2.set_status st) :: rest else p :: setStatusAt rest k st

/-- Keys, as `HashMap::keys`. -/
def keysOf (l : BookingList) : List Nat := l.map Prod.fst

/-- Values, as `HashMap::values` (cloned). -/
def valuesOf (l : BookingList) : List RoomBooking := l.map Prod.snd

/-- Mirrors `booking_list.keys().fold(std::u32::MIN, |a, b| a.max(*b))` in
`storage::create` (`u32::MIN = 0`). -/
def maxId (l : BookingList) : Nat := (keysOf l).foldl (fun a b => max a b) 0

/-- Mirrors `let next_id = max_id + 1;` — unguarded `u32` addition, hence the
explicit wrap at `2 ^ 32`. -/
def nextId (l : BookingList) : Nat := (maxId l + 1) % UMAX

/-- Mirrors `storage::create`.  The input-field check happens before the
lock is taken, exactly as in the source; `lockOk` is the outcome of
`BOOKING_LIST.lock()`.  Returns the booking handed back to the caller
together with the updated map.  The snapshot write triggered by the
source is modelled separately (`save_snapshot`); its result is ignored
by `create`, as in the source. -/
def create (lockOk : Bool) (l : BookingList) (booking : RoomBooking) :
    Except Unit (RoomBooking × BookingList) :=
  if booking.booking_id ≠ none ∨ booking.status ≠ none then Except.error ()
  else if !lockOk then Except.error ()
  else
    let max_id := maxId l
    let next_id := (max_id + 1) % UMAX
    let b := (booking.set_booking_id next_id).set_status BookingStatus.Confirmed
    Except.ok (b, insertB l next_id b)

/-- Mirrors `storage::status`: look the booking up, refuse unless its
current status is `Confirmed`, otherwise apply the requested status in
place.  Returns the source's boolean together with the updated map. -/
def status (lockOk : Bool) (l : BookingList) (booking_id : Nat) (st : BookingStatus) :
    Bool × BookingList :=
  if !lockOk then (false, l)
  else
    match getB l booking_id with
    | none => (false, l)
    | some booking =>
      if booking.status ≠ some BookingStatus.Confirmed then (false, l)
      else (true, setStatusAt l booking_id st)

/-- Mirrors `storage::fetch_by_id`. -/
def fetch_by_id (lockOk : Bool) (l : BookingList) (booking_id : Nat) : Option RoomBooking :=
  if !lockOk then none else getB l booking_id

/-- Mirrors `storage::fetch_by_customer_id`. -/
def fetch_by_customer_id (lockOk : Bool) (l : BookingList) (customer_id : Nat) : List RoomBooking :=
  if !lockOk then []
  else (valuesOf l).filter (fun b => decide (b.customer_id = customer_id))

/-- Mirrors `storage::fetch_by_check_in_date`. -/
def fetch_by_check_in_date (lockOk : Bool) (l : BookingList) (date : String) : List RoomBooking :=
  if !lockOk then []
  else (valuesOf l).filter (fun b => decide (b.check_in_date = date))

/-- Mirrors `storage::fetch_by_room_type_id`. -/
def fetch_by_room_type_id (lockOk : Bool) (l : BookingList) (room_type_id : Nat) : List RoomBooking :=
  if !lockOk then []
  else (valuesOf l).filter (fun b => decide (b.room_type_id = room_type_id))

/-- Mirrors `storage::fetch_all`. -/
def fetch_all (lockOk : Bool) (l : BookingList) : List RoomBooking :=
  if !lockOk then [] else valuesOf l

/-!
Snapshot codec.  Modelled from the spec: the `bincode` serialize and
deserialize functions used by `save_snapshot` and `load_snapshot` are an
external crate, not part of this repository, so following the spec we
model "one binary-encoded value: a mapping from booking id to the full
Booking record (including its id and status)" as a self-delimiting token
stream (`List Nat`): length-prefixed entry list, each entry the key
followed by the booking's fields, strings length-prefixed as character
codes, options tagged 0/1 and the status as a small code.
-/

/-- Binary code of a `BookingStatus` value. -/
def statusCode : BookingStatus → Nat
  | BookingStatus.Confirmed => 0
  | BookingStatus.Complete => 1
  | BookingStatus.Cancelled => 2

/-- Decode a `BookingStatus` code. -/
def statusOfCode : Nat → Option BookingStatus
  | 0 => some BookingStatus.Confirmed
  | 1 => some BookingStatus.Complete
  | 2 => some BookingStatus.Cancelled
  | _ => none

/-- Encode an optional natural (tag then payload). -/
def encOptNat : Option Nat → List Nat
  | none => [0]
  | some n => [1, n]

/-- Decode an optional natural, returning the unconsumed rest. -/
def decOptNat : List Nat → Option (Option Nat × List Nat)
  | 0 :: rest => some (none, rest)
  | 1 :: n :: rest => some (some n, rest)
  | _ => none

/-- Encode an optional status (tag then code). -/
def encOptStatus : Option BookingStatus → List Nat
  | none => [0]
  | some st => [1, statusCode st]

/-- Decode an optional status, returning the unconsumed rest. -/
def decOptStatus : List Nat → Option (Option BookingStatus × List Nat)
  | 0 :: rest => some (none, rest)
  | 1 :: c :: rest => (statusOfCode c).map (fun st => (some st, rest))
  | _ => none

/-- Encode a string: length prefix then character codes. -/
def encStr (s : String) : List Nat := s.data.length :: s.data.map Char.toNat

/-- Decode `n` character codes, returning the unconsumed rest. -/
def decChars : Nat → List Nat → Option (List Char × List Nat)
  | 0, rest => some ([], rest)
  | _ + 1, [] => none
  | n + 1, c :: rest => (decChars n rest).map (fun pr => (Char.ofNat c :: pr.1, pr.2))

/-- Decode a length-prefixed string, returning the unconsumed rest. -/
def decStr : List Nat → Option (String × List Nat)
  | [] => none
  | n :: rest => (decChars n rest).map (fun pr => (String.mk pr.1, pr.2))

/-- Encode a full `RoomBooking` record, all six fields in order. -/
def encBooking (b : RoomBooking) : List Nat :=
  encOptNat b.booking_id ++
    b.customer_id :: b.room_type_id ::
      (encStr b.check_in_date ++ (encStr b.check_out_date ++ encOptStatus b.status))

/-- Decode a `RoomBooking` record, returning the unconsumed rest. -/
def decBooking (l : List Nat) : Option (RoomBooking × List Nat) := do
  let (bid, r1) ← decOptNat l
  match r1 with
  | cid :: rid :: r2 =>
    let (ci, r3) ← decStr r2
    let (co, r4) ← decStr r3
    let (st, r5) ← decOptStatus r4
    some (⟨bid, cid, rid, ci, co, st⟩, r5)
  | _ => none

/-- Encode one map entry: the key followed by the booking. -/
def encEntry (p : Nat × RoomBooking) : List Nat := p.1 :: encBooking p.2

/-- Decode one map entry, returning the unconsumed rest. -/
def decEntry : List Nat → Option ((Nat × RoomBooking) × List Nat)
  | [] => none
  | k :: rest => (decBooking rest).map (fun pr => ((k, pr.1), pr.2))

/-- Concatenated encodings of a list of entries. -/
def encEntries : BookingList → List Nat
  | [] => []
  | p :: rest => encEntry p ++ encEntries rest

/-- Decode exactly `n` entries, returning the unconsumed rest. -/
def decEntries : Nat → List Nat → Option (BookingList × List Nat)
  | 0, rest => some ([], rest)
  | n + 1, l => do
    let (e, r) ← decEntry l
    let (es, r2) ← decEntries n r
    some (e :: es, r2)

/-- Encode the whole collection: entry count followed by the entries. -/
def encodeColl (m : BookingList) : List Nat := m.length :: encEntries m

/-- Decode a whole collection; fails on malformed or trailing data. -/
def decodeColl (l : List Nat) : Option BookingList :=
  match l with
  | [] => none
  | n :: rest =>
    match decEntries n rest with
    | some (m, []) => some m
    | _ => none

/-!
Snapshot manager operations of `storage.rs`.  `save_snapshot` and
`load_snapshot` branch on effect outcomes (encode result, file
creation, file write, file read, lock acquisition); each outcome is an
explicit parameter and the control flow is the source's.
-/

/-- Mirrors `storage::save_snapshot`.  `enc` is the result of
`bincode::serialize` (the source's `unwrap_or_else` closure substitutes
an empty byte vector on encode failure — the closure's `return` exits
the closure only, so the function keeps going); `createOk` is the
outcome of `File::create` and `writeOk` of `file.write_all`.  The first
component is the source's returned boolean; the second is the file
content left on disk by a successful write (`none` when nothing was
durably written). -/
def save_snapshot (enc : Except Unit (List Nat)) (createOk : Bool) (writeOk : Bool) :
    Bool × Option (List Nat) :=
  let snapshot : List Nat :=
    match enc with
    | Except.ok v => v
    | Except.error _ => []
  if createOk = false then (false, none)
  else if writeOk then (true, some snapshot)
  else (false, none)

/-- Possible outcomes of `storage::load_snapshot`: success with the
decoded collection that wholesale-replaces the store, an error returned
to the caller, or a panic. -/
inductive LoadOutcome where
  | ok (snapshot : BookingList)
  | err
  | panicked
deriving DecidableEq, Repr

/-- Mirrors `storage::load_snapshot`.  `fileData` is the file content
(`none` when `File::open` or `read_to_end` fails, propagated with `?`);
a `bincode::deserialize` failure is returned as an error; then the
source runs `BOOKING_LIST.lock().unwrap()`, which panics when the lock
is poisoned (`lockOk = false`) and otherwise replaces the store with
the decoded snapshot. -/
def load_snapshot (lockOk : Bool) (fileData : Option (List Nat)) : LoadOutcome :=
  match fileData with
  | none => LoadOutcome.err
  | some bytes =>
    match decodeColl bytes with
    | none => LoadOutcome.err
    | some snapshot => if lockOk then LoadOutcome.ok snapshot else LoadOutcome.panicked

/-!
Operation sequences over the store, for the inductive invariants and
the identity-allocation claims.
-/

/-- A store mutation together with the outcome of its lock
acquisition. -/
inductive Op where
  | opCreate (lockOk : Bool) (b : RoomBooking)
  | opStatus (lockOk : Bool) (id : Nat) (st : BookingStatus)

/-- Effect of one mutation on the map (a failed `create` leaves the map
untouched; `status` always returns the resulting map). -/
def applyOp (l : BookingList) : Op → BookingList
  | Op.opCreate lk b =>
    match create lk l b with
    | Except.ok (_, l2) => l2
    | Except.error _ => l
  | Op.opStatus lk id st => (status lk l id st).2

/-- Run a sequence of mutations from a starting map. -/
def run (ops : List Op) (l : BookingList) : BookingList := ops.foldl applyOp l

/-- Number of creation requests in a batch that `create` accepts (both
server-owned fields unset). -/
def countSucc (bs : List RoomBooking) : Nat :=
  (bs.filter (fun b => b.booking_id.isNone && b.status.isNone)).length

/-- Run a batch of creation requests (lock always acquired), collecting
the ids assigned to the successful ones in order, together with the
final map. -/
def runCreates : BookingList → List RoomBooking → List Nat × BookingList
  | l, [] => ([], l)
  | l, b :: bs =>
    match create true l b with
    | Except.ok (nb, l2) =>
      let r := runCreates l2 bs
      (nb.booking_id.getD 0 :: r.1, r.2)
    | Except.error _ => runCreates l bs

/-!
Concrete bookings and stores used by witnesses and counterexamples.
-/

/-- A well-formed creation request (both server-owned fields unset):
the dummy booking of the repository's tests. -/
def reqBooking : RoomBooking :=
  ⟨none, 1, 3, "2020-01-01", "2020-01-08", none⟩

/-- The booking the store makes from `reqBooking` on an empty store:
`dummmy_booking_success` in the repository's tests. -/
def storedBooking : RoomBooking :=
  ⟨some 1, 1, 3, "2020-01-01", "2020-01-08", some BookingStatus.Confirmed⟩

/-- A minimal creation request with short fields. -/
def fresh0 : RoomBooking := ⟨none, 1, 1, "a", "b", none⟩

/-- A stored, `Confirmed` booking under key 1. -/
def confirmed1 : RoomBooking := ⟨some 1, 1, 1, "a", "b", some BookingStatus.Confirmed⟩

/-- A one-entry store holding `confirmed1`. -/
def exStore : BookingList := [(1, confirmed1)]

/-!
Helper lemmas about the map operations.
-/

theorem getB_setStatusAt_self (l : BookingList) (k : Nat) (st : BookingStatus) (b : RoomBooking)
    (h : getB l k = some b) : getB (setStatusAt l k st) k = some (b.set_status st) := by
  induction l with
  | nil => simp [getB] at h
  | cons p rest ih =>
    by_cases hk : p.1 = k
    · simp [getB, hk] at h
      simp [setStatusAt, getB, hk, h]
    · simp [getB, hk] at h
      simp [setStatusAt, getB, hk, ih h]

theorem mem_insertB (l : BookingList) (k : Nat) (v : RoomBooking) (q : Nat × RoomBooking)
    (h : q ∈ insertB l k v) : q = (k, v) ∨ q ∈ l := by
  induction l with
  | nil => simp [insertB] at h; simp [h]
  | cons p rest ih =>
    by_cases hk : p.1 = k
    · simp [insertB, hk] at h
      rcases h with h | h
      · exact Or.inl h
      · exact Or.inr (List.mem_cons_of_mem _ h)
    · simp [insertB, hk] at h
      rcases h with h | h
      · exact Or.inr (by simp [h])
      · rcases ih h with h2 | h2
        · exact Or.inl h2
        · exact Or.inr (List.mem_cons_of_mem _ h2)

theorem mem_setStatusAt (l : BookingList) (k : Nat) (st : BookingStatus) (q : Nat × RoomBooking)
    (h : q ∈ setStatusAt l k st) : q ∈ l ∨ ∃ p ∈ l, q = (p.1, p.2.set_status st) := by
  induction l with
  | nil => simp [setStatusAt] at h
  | cons p rest ih =>
    by_cases hk : p.1 = k
    · simp [setStatusAt, hk] at h
      rcases h with h | h
      · exact Or.inr ⟨p, by simp, by simp [h, hk]⟩
      · exact Or.inl (List.mem_cons_of_mem _ h)
    · simp [setStatusAt, hk] at h
      rcases h with h | h
      · exact Or.inl (by simp [h])
      · rcases ih h with h2 | h2
        · exact Or.inl (List.mem_cons_of_mem _ h2)
        · rcases h2 with ⟨r, hr, hq⟩
          exact Or.inr ⟨r, List.mem_cons_of_mem _ hr, hq⟩

theorem idMap_setStatusAt (l : BookingList) (k : Nat) (st : BookingStatus) :
    (setStatusAt l k st).map (fun p => (p.1, p.2.booking_id)) =
      l.map (fun p => (p.1, p.2.booking_id)) := by
  induction l with
  | nil => rfl
  | cons p rest ih =>
    by_cases hk : p.1 = k
    · simp [setStatusAt, hk, RoomBooking.set_status]
    · simp [setStatusAt, hk, ih]

theorem insertB_of_not_mem (l : BookingList) (k : Nat) (v : RoomBooking)
    (h : k ∉ keysOf l) : insertB l k v = l ++ [(k, v)] := by
  induction l with
  | nil => rfl
  | cons p rest ih =>
    have hcons : keysOf (p :: rest) = p.1 :: keysOf rest := rfl
    rw [hcons] at h
    simp only [List.mem_cons, not_or] at h
    have h1 : ¬p.1 = k := fun hc => h.1 hc.symm
    simp [insertB, h1, ih h.2]

theorem foldl_max_init (xs : List Nat) (a : Nat) : a ≤ xs.foldl (fun x y => max x y) a := by
  induction xs generalizing a with
  | nil => exact Nat.le_refl a
  | cons x rest ih => exact Nat.le_trans (Nat.le_max_left a x) (ih (max a x))

theorem foldl_max_mem_le (xs : List Nat) (a : Nat) (x : Nat) (h : x ∈ xs) :
    x ≤ xs.foldl (fun u v => max u v) a := by
  induction xs generalizing a with
  | nil => simp at h
  | cons y rest ih =>
    rcases List.mem_cons.mp h with h | h
    · subst h
      exact Nat.le_trans (Nat.le_max_right a x) (foldl_max_init rest (max a x))
    · exact ih h (a := max a y)

theorem keys_le_maxId (l : BookingList) (k : Nat) (h : k ∈ keysOf l) : k ≤ maxId l :=
  foldl_max_mem_le (keysOf l) 0 k h

theorem maxId_append_single (l : BookingList) (k : Nat) (v : RoomBooking) :
    maxId (l ++ [(k, v)]) = max (maxId l) k := by
  unfold maxId keysOf
  rw [List.map_append, List.foldl_append]
  rfl

/-!
Roundtrip lemmas for the snapshot codec.
-/

theorem decOptNat_enc (o : Option Nat) (r : List Nat) :
    decOptNat (encOptNat o ++ r) = some (o, r) := by
  cases o <;> rfl

theorem decOptStatus_enc (o : Option BookingStatus) (r : List Nat) :
    decOptStatus (encOptStatus o ++ r) = some (o, r) := by
  cases o with
  | none => rfl
  | some st => cases st <;> rfl

theorem decChars_enc (cs : List Char) (r : List Nat) :
    decChars cs.length (cs.map Char.toNat ++ r) = some (cs, r) := by
  induction cs with
  | nil => rfl
  | cons c rest ih => simp [decChars, ih, Char.ofNat_toNat]

theorem decStr_enc (s : String) (r : List Nat) :
    decStr (encStr s ++ r) = some (s, r) := by
  have hs : String.mk s.data = s := by cases s; rfl
  have h1 : encStr s ++ r = s.data.length :: (s.data.map Char.toNat ++ r) := rfl
  rw [h1]
  show (decChars s.data.length (s.data.map Char.toNat ++ r)).map
      (fun pr => (String.mk pr.1, pr.2)) = some (s, r)
  rw [decChars_enc]
  simp [hs]

theorem decBooking_enc (b : RoomBooking) (r : List Nat) :
    decBooking (encBooking b ++ r) = some (b, r) := by
  obtain ⟨bid, cid, rid, ci, co, st⟩ := b
  simp [encBooking, decBooking, List.append_assoc, decOptNat_enc, decStr_enc, decOptStatus_enc]

theorem decEntry_enc (p : Nat × RoomBooking) (r : List Nat) :
    decEntry (encEntry p ++ r) = some (p, r) := by
  simp [encEntry, decEntry, decBooking_enc]

theorem decEntries_enc (m : BookingList) (r : List Nat) :
    decEntries m.length (encEntries m ++ r) = some (m, r) := by
  induction m with
  | nil => rfl
  | cons p rest ih => simp [encEntries, decEntries, List.append_assoc, decEntry_enc, ih]

theorem decodeColl_enc (m : BookingList) : decodeColl (encodeColl m) = some m := by
  have h := decEntries_enc m []
  rw [List.append_nil] at h
  simp [encodeColl, decodeColl, h]

/-!
Characterization of `create` and of batched creations.
-/

theorem create_ok_of_unset (l : BookingList) (b : RoomBooking)
    (h1 : b.booking_id = none) (h2 : b.status = none) :
    create true l b =
      Except.ok ((b.set_booking_id (nextId l)).set_status BookingStatus.Confirmed,
        insertB l (nextId l) ((b.set_booking_id (nextId l)).set_status BookingStatus.Confirmed)) := by
  simp [create, h1, h2, nextId]

theorem create_err_of_set (l : BookingList) (b : RoomBooking)
    (h : ¬(b.booking_id = none ∧ b.status = none)) :
    create true l b = Except.error () := by
  rcases not_and_or.mp h with h1 | h1 <;> simp [create, h1]

theorem countSucc_cons_pos (b : RoomBooking) (bs : List RoomBooking)
    (h1 : b.booking_id = none) (h2 : b.status = none) :
    countSucc (b :: bs) = countSucc bs + 1 := by
  simp [countSucc, List.filter_cons, h1, h2]

theorem countSucc_cons_neg (b : RoomBooking) (bs : List RoomBooking)
    (h : ¬(b.booking_id = none ∧ b.status = none)) :
    countSucc (b :: bs) = countSucc bs := by
  have hpred : (b.booking_id.isNone && b.status.isNone) = false := by
    rcases not_and_or.mp h with h1 | h1
    · have hf : b.booking_id.isNone = false := by
        cases hx : b.booking_id with
        | none => exact absurd hx h1
        | some v => rfl
      simp [hf]
    · have hf : b.status.isNone = false := by
        cases hx : b.status with
        | none => exact absurd hx h1
        | some v => rfl
      simp [hf]
  simp [countSucc, List.filter_cons, hpred]

theorem runCreates_spec (bs : List RoomBooking) : ∀ l : BookingList,
    maxId l + countSucc bs < UMAX →
    (runCreates l bs).1 = List.range' (maxId l + 1) (countSucc bs) ∧
    maxId (runCreates l bs).2 = maxId l + countSucc bs := by
  induction bs with
  | nil =>
    intro l _
    simp [runCreates, countSucc]
  | cons b bs ih =>
    intro l h
    by_cases hb : b.booking_id = none ∧ b.status = none
    · have hcount := countSucc_cons_pos b bs hb.1 hb.2
      rw [hcount] at h
      have hlt : maxId l + 1 < UMAX := by omega
      have hnid : nextId l = maxId l + 1 := by
        rw [nextId]; exact Nat.mod_eq_of_lt hlt
      have hok := create_ok_of_unset l b hb.1 hb.2
      have hfresh : nextId l ∉ keysOf l := by
        intro hc
        have := keys_le_maxId l (nextId l) hc
        omega
      have hbid : ((b.set_booking_id (nextId l)).set_status BookingStatus.Confirmed).booking_id
          = some (nextId l) := by
        simp [RoomBooking.set_booking_id, RoomBooking.set_status]
      have hins := insertB_of_not_mem l (nextId l)
        ((b.set_booking_id (nextId l)).set_status BookingStatus.Confirmed) hfresh
      have hmax2 : maxId (insertB l (nextId l)
          ((b.set_booking_id (nextId l)).set_status BookingStatus.Confirmed)) = maxId l + 1 := by
        rw [hins, maxId_append_single, hnid]
        omega
      have hrec := ih (insertB l (nextId l)
        ((b.set_booking_id (nextId l)).set_status BookingStatus.Confirmed)) (by omega)
      rw [hmax2] at hrec
      constructor
      · show (runCreates l (b :: bs)).1 = List.range' (maxId l + 1) (countSucc (b :: bs))
        rw [hcount, List.range'_succ]
        simp only [runCreates, hok]
        rw [hbid]
        simp only [Option.getD_some]
        rw [hrec.1, hnid]
      · show maxId (runCreates l (b :: bs)).2 = maxId l + countSucc (b :: bs)
        rw [hcount]
        simp only [runCreates, hok]
        rw [hrec.2]
        omega
    · have hcount := countSucc_cons_neg b bs hb
      have herr := create_err_of_set l b hb
      rw [hcount] at h ⊢
      simp only [runCreates, herr]
      exact ih l h

theorem runCreates_append (bs cs : List RoomBooking) : ∀ l : BookingList,
    runCreates l (bs ++ cs) =
      ((runCreates l bs).1 ++ (runCreates (runCreates l bs).2 cs).1,
        (runCreates (runCreates l bs).2 cs).2) := by
  induction bs with
  | nil => intro l; simp [runCreates]
  | cons b bs ih =>
    intro l
    cases hc : create true l b with
    | ok pr => simp [runCreates, hc, ih pr.2]
    | error e => simp [runCreates, hc, ih l]

/-!
Claim theorems.
-/

/-- Claim C1, counterexample to the claim as stated: on a store holding
a `Confirmed` booking under id 1, the status-change operation accepts
the requested status `Confirmed` — a requested status that is neither
`Complete` nor `Cancelled` — so the transition rule claimed by the spec
does not hold of the code. -/
theorem C1_counterexample :
    (status true exStore 1 BookingStatus.Confirmed).1 = true ∧
    BookingStatus.Confirmed ≠ BookingStatus.Complete ∧
    BookingStatus.Confirmed ≠ BookingStatus.Cancelled := by
  refine ⟨by decide, by decide, by decide⟩

/-- Claim C1, amended: the status-change operation succeeds exactly
when a booking with the given id exists and its current status is
`Confirmed`; the requested status is unconstrained (re-applying
`Confirmed` is permitted), and on success the requested status is
applied to the stored booking. -/
theorem C1_status_transition (l : BookingList) (id : Nat) (st : BookingStatus) :
    ((status true l id st).1 = true ↔
      ∃ b, getB l id = some b ∧ b.status = some BookingStatus.Confirmed) ∧
    (∀ b, getB l id = some b → b.status = some BookingStatus.Confirmed →
      status true l id st = (true, setStatusAt l id st) ∧
      getB (setStatusAt l id st) id = some (b.set_status st)) := by
  constructor
  · constructor
    · intro h
      rcases hg : getB l id with _ | b
      · simp [status, hg] at h
      · by_cases hs : b.status = some BookingStatus.Confirmed
        · exact ⟨b, rfl, hs⟩
        · simp [status, hg, hs] at h
    · rintro ⟨b, hg, hs⟩
      simp [status, hg, hs]
  · intro b hg hs
    exact ⟨by simp [status, hg, hs], getB_setStatusAt_self l id st b hg⟩

/-- Claim C1, witness: the amended theorem applied to the concrete
one-booking store, transitioning booking 1 to `Complete`. -/
theorem C1_witness :
    getB exStore 1 = some confirmed1 ∧
    status true exStore 1 BookingStatus.Complete =
      (true, setStatusAt exStore 1 BookingStatus.Complete) ∧
    getB (setStatusAt exStore 1 BookingStatus.Complete) 1 =
      some (confirmed1.set_status BookingStatus.Complete) := by
  have h := (C1_status_transition exStore 1 BookingStatus.Complete).2 confirmed1 rfl rfl
  exact ⟨rfl, h.1, h.2⟩

/-- Claim C2: `create` returns an error if and only if the input
booking has `booking_id` set or `status` set; when both are unset it
succeeds, and the returned booking carries status `Confirmed`, the
freshly allocated id, and the caller-supplied fields unchanged. -/
theorem C2_create_validation (l : BookingList) (b : RoomBooking) :
    (create true l b = Except.error () ↔ (b.booking_id ≠ none ∨ b.status ≠ none)) ∧
    (b.booking_id = none → b.status = none →
      create true l b =
        Except.ok (⟨some (nextId l), b.customer_id, b.room_type_id,
            b.check_in_date, b.check_out_date, some BookingStatus.Confirmed⟩,
          insertB l (nextId l)
            ⟨some (nextId l), b.customer_id, b.room_type_id,
              b.check_in_date, b.check_out_date, some BookingStatus.Confirmed⟩)) := by
  constructor
  · constructor
    · intro he
      by_contra hc
      push_neg at hc
      rw [create_ok_of_unset l b hc.1 hc.2] at he
      simp at he
    · intro hor
      refine create_err_of_set l b ?_
      intro hand
      rcases hor with h1 | h1
      · exact h1 hand.1
      · exact h1 hand.2
  · intro h1 h2
    exact create_ok_of_unset l b h1 h2

/-- Claim C2, witness: creating the repository tests' dummy booking on
an empty store yields exactly the tests' expected booking, stored under
the fresh id 1. -/
theorem C2_witness :
    reqBooking.booking_id = none ∧ reqBooking.status = none ∧
    create true [] reqBooking = Except.ok (storedBooking, [(1, storedBooking)]) := by
  refine ⟨rfl, rfl, ?_⟩
  exact (C2_create_validation [] reqBooking).2 rfl rfl

/-- Claim C4, counterexample to the claim as stated: after a successful
transition (re-applying `Confirmed` to a `Confirmed` booking), a second
status call on the same id succeeds again instead of returning false. -/
theorem C4_counterexample :
    (status true exStore 1 BookingStatus.Confirmed).1 = true ∧
    (status true (status true exStore 1 BookingStatus.Confirmed).2 1 BookingStatus.Complete).1
      = true := by
  refine ⟨by decide, by decide⟩

/-- Claim C4, amended: `status` returns false and leaves the store
completely unchanged when the id is missing or the booking is not
`Confirmed`; and after a successful transition to `Complete` or
`Cancelled`, any second status call on that id returns false and leaves
the store unchanged. -/
theorem C4_status_failure (l : BookingList) (id : Nat) (st : BookingStatus) :
    (getB l id = none → status true l id st = (false, l)) ∧
    (∀ b, getB l id = some b → b.status ≠ some BookingStatus.Confirmed →
      status true l id st = (false, l)) ∧
    (∀ b, getB l id = some b → b.status = some BookingStatus.Confirmed →
      (st = BookingStatus.Complete ∨ st = BookingStatus.Cancelled) →
      ∀ st2, status true (status true l id st).2 id st2 =
        (false, (status true l id st).2)) := by
  refine ⟨?_, ?_, ?_⟩
  · intro h
    simp [status, h]
  · intro b hg hs
    simp [status, hg, hs]
  · intro b hg hs hor st2
    have h1 : status true l id st = (true, setStatusAt l id st) := by simp [status, hg, hs]
    rw [h1]
    have h2 := getB_setStatusAt_self l id st b hg
    have h3 : (b.set_status st).status ≠ some BookingStatus.Confirmed := by
      rcases hor with h | h <;> simp [RoomBooking.set_status, h]
    simp [status, h2, h3]

/-- Claim C4, witness: the amended theorem applied to the concrete
one-booking store — after completing booking 1, cancelling it fails and
changes nothing. -/
theorem C4_witness :
    getB exStore 1 = some confirmed1 ∧
    status true (status true exStore 1 BookingStatus.Complete).2 1 BookingStatus.Cancelled =
      (false, (status true exStore 1 BookingStatus.Complete).2) := by
  refine ⟨rfl, ?_⟩
  exact (C4_status_failure exStore 1 BookingStatus.Complete).2.2 confirmed1 rfl rfl
    (Or.inl rfl) BookingStatus.Cancelled

/-- Claim C5: evaluation of `save_snapshot` at the claimed failure mode.
When the encode step fails while file creation and the write succeed,
the function returns true (having written the substituted empty byte
vector), not false: the `unwrap_or_else` closure's `return` exits the
closure only, so the encode failure is never reported. -/
theorem C5_encode_failure_returns_true :
    save_snapshot (Except.error ()) true true = (true, some []) := rfl

/-- Claim C6: saving a non-empty collection (encode succeeding, file
created and written) leaves exactly the collection's encoding on disk,
and loading that file back wholesale-replaces the store with an
identical collection — encode followed by decode is the identity. -/
theorem C6_snapshot_roundtrip (l : BookingList) (h : l ≠ []) :
    (save_snapshot (Except.ok (encodeColl l)) true true).2 = some (encodeColl l) ∧
    load_snapshot true (some (encodeColl l)) = LoadOutcome.ok l := by
  refine ⟨rfl, ?_⟩
  simp [load_snapshot, decodeColl_enc]

/-- Claim C6, witness: the roundtrip theorem applied to the concrete
one-booking store. -/
theorem C6_witness :
    exStore ≠ [] ∧
    load_snapshot true (some (encodeColl exStore)) = LoadOutcome.ok exStore := by
  refine ⟨by decide, ?_⟩
  exact (C6_snapshot_roundtrip exStore (by decide)).2

/-- Claim C7: each keyed fetch returns exactly the multiset of stored
bookings whose corresponding field equals the argument (no duplicates
beyond the store's own, no omissions, order irrelevant), and returns
the empty list precisely when no stored booking matches. -/
theorem C7_fetch_filters (l : BookingList) (cid : Nat) (rid : Nat) (d : String) :
    ((fetch_by_customer_id true l cid : List RoomBooking) : Multiset RoomBooking) =
      Multiset.filter (fun b => b.customer_id = cid)
        ((valuesOf l : List RoomBooking) : Multiset RoomBooking) ∧
    ((fetch_by_room_type_id true l rid : List RoomBooking) : Multiset RoomBooking) =
      Multiset.filter (fun b => b.room_type_id = rid)
        ((valuesOf l : List RoomBooking) : Multiset RoomBooking) ∧
    ((fetch_by_check_in_date true l d : List RoomBooking) : Multiset RoomBooking) =
      Multiset.filter (fun b => b.check_in_date = d)
        ((valuesOf l : List RoomBooking) : Multiset RoomBooking) ∧
    (fetch_by_customer_id true l cid = [] ↔ ∀ b ∈ valuesOf l, ¬b.customer_id = cid) ∧
    (fetch_by_room_type_id true l rid = [] ↔ ∀ b ∈ valuesOf l, ¬b.room_type_id = rid) ∧
    (fetch_by_check_in_date true l d = [] ↔ ∀ b ∈ valuesOf l, ¬b.check_in_date = d) := by
  refine ⟨?_, ?_, ?_, ?_, ?_, ?_⟩
  · rw [Multiset.filter_coe]
    simp [fetch_by_customer_id]
  · rw [Multiset.filter_coe]
    simp [fetch_by_room_type_id]
  · rw [Multiset.filter_coe]
    simp [fetch_by_check_in_date]
  · simp [fetch_by_customer_id, List.filter_eq_nil_iff]
  · simp [fetch_by_room_type_id, List.filter_eq_nil_iff]
  · simp [fetch_by_check_in_date, List.filter_eq_nil_iff]

/-- Claim C7, witness: the filter characterization applied to the
concrete one-booking store. -/
theorem C7_witness :
    ((fetch_by_customer_id true exStore 1 : List RoomBooking) : Multiset RoomBooking) =
      Multiset.filter (fun b => b.customer_id = 1)
        ((valuesOf exStore : List RoomBooking) : Multiset RoomBooking) :=
  (C7_fetch_filters exStore 1 1 "a").1

/-- Claim C8, counterexample to the claim as stated: the startup
snapshot load does not degrade to a failed result when the lock is
poisoned — `load_snapshot` calls `unwrap()` on the lock and panics
(here on a well-formed snapshot file of the one-booking store). -/
theorem C8_counterexample :
    load_snapshot false (some (encodeColl exStore)) = LoadOutcome.panicked := by
  simp [load_snapshot, decodeColl_enc]

/-- Claim C8, amended: `create`, `status` and every fetch operation
degrade to an error, `false`, `none` or an empty list when the lock
cannot be acquired, leaving the store untouched; the startup snapshot
load, however, panics on a poisoned lock once the file has been read
and decoded. -/
theorem C8_lock_degradation :
    (∀ (l : BookingList) (b : RoomBooking), create false l b = Except.error ()) ∧
    (∀ (l : BookingList) (id : Nat) (st : BookingStatus), status false l id st = (false, l)) ∧
    (∀ (l : BookingList) (id : Nat), fetch_by_id false l id = none) ∧
    (∀ (l : BookingList) (cid : Nat), fetch_by_customer_id false l cid = []) ∧
    (∀ (l : BookingList) (rid : Nat), fetch_by_room_type_id false l rid = []) ∧
    (∀ (l : BookingList) (d : String), fetch_by_check_in_date false l d = []) ∧
    (∀ l : BookingList, fetch_all false l = []) ∧
    (∀ m : BookingList, load_snapshot false (some (encodeColl m)) = LoadOutcome.panicked) := by
  refine ⟨?_, ?_, ?_, ?_, ?_, ?_, ?_, ?_⟩
  · intro l b
    by_cases hb : b.booking_id ≠ none ∨ b.status ≠ none
    · simp [create, hb]
    · simp [create, hb]
  · intro l id st
    simp [status]
  · intro l id
    simp [fetch_by_id]
  · intro l cid
    simp [fetch_by_customer_id]
  · intro l rid
    simp [fetch_by_room_type_id]
  · intro l d
    simp [fetch_by_check_in_date]
  · intro l
    simp [fetch_all]
  · intro m
    simp [load_snapshot, decodeColl_enc]

/-- Claim C8, witness: the degradation theorem applied to the concrete
one-booking store. -/
theorem C8_witness :
    create false exStore reqBooking = Except.error () ∧
    status false exStore 1 BookingStatus.Complete = (false, exStore) ∧
    fetch_all false exStore = [] :=
  ⟨C8_lock_degradation.1 exStore reqBooking,
    C8_lock_degradation.2.1 exStore 1 BookingStatus.Complete,
    C8_lock_degradation.2.2.2.2.2.2.1 exStore⟩

theorem create_ok_inv (lk : Bool) (l : BookingList) (b : RoomBooking)
    (pr : RoomBooking × BookingList) (h : create lk l b = Except.ok pr) :
    pr = ((b.set_booking_id (nextId l)).set_status BookingStatus.Confirmed,
      insertB l (nextId l) ((b.set_booking_id (nextId l)).set_status BookingStatus.Confirmed)) := by
  unfold create at h
  split at h
  · simp at h
  · split at h
    · simp at h
    · injection h with h
      exact h.symm

theorem invariant_applyOp (l : BookingList) (op : Op)
    (h : ∀ p ∈ l, p.2.booking_id = some p.1 ∧ p.2.status.isSome = true) :
    ∀ p ∈ applyOp l op, p.2.booking_id = some p.1 ∧ p.2.status.isSome = true := by
  intro p hp
  match op with
  | Op.opCreate lk b =>
    dsimp [applyOp] at hp
    cases hc : create lk l b with
    | error e =>
      rw [hc] at hp
      exact h p hp
    | ok pr =>
      rw [hc] at hp
      rw [create_ok_inv lk l b pr hc] at hp
      dsimp at hp
      rcases mem_insertB _ _ _ _ hp with h1 | h1
      · subst h1
        simp [RoomBooking.set_booking_id, RoomBooking.set_status]
      · exact h p h1
  | Op.opStatus lk id st =>
    have hsplit : (status lk l id st).2 = l ∨ (status lk l id st).2 = setStatusAt l id st := by
      unfold status
      split
      · exact Or.inl rfl
      · rcases hg : getB l id with _ | b2
        · exact Or.inl rfl
        · by_cases hs : b2.status = some BookingStatus.Confirmed
          · simp [hs]
          · simp [hs]
    dsimp [applyOp] at hp
    rcases hsplit with h1 | h1
    · rw [h1] at hp
      exact h p hp
    · rw [h1] at hp
      rcases mem_setStatusAt _ _ _ _ hp with h2 | h2
      · exact h p h2
      · rcases h2 with ⟨q, hq, hpq⟩
        subst hpq
        have := h q hq
        simp [RoomBooking.set_status, this.1]

theorem invariant_run (ops : List Op) : ∀ l : BookingList,
    (∀ p ∈ l, p.2.booking_id = some p.1 ∧ p.2.status.isSome = true) →
    ∀ p ∈ run ops l, p.2.booking_id = some p.1 ∧ p.2.status.isSome = true := by
  induction ops with
  | nil =>
    intro l h
    simpa [run] using h
  | cons op rest ih =>
    intro l h
    have h2 := invariant_applyOp l op h
    have h3 := ih (applyOp l op) h2
    simpa [run, List.foldl_cons] using h3

/-- Claim C9: starting from the empty store, after every sequence of
create and status operations (under any lock outcomes), every stored
entry's `booking_id` is `some` of the key it is stored under and its
`status` is set; moreover the status operation never alters any
stored `booking_id` (the key-to-id assignment is immutable). -/
theorem C9_store_invariant :
    (∀ ops : List Op, ∀ p ∈ run ops [],
      p.2.booking_id = some p.1 ∧ p.2.status.isSome = true) ∧
    (∀ (lk : Bool) (l : BookingList) (id : Nat) (st : BookingStatus),
      ((status lk l id st).2).map (fun p => (p.1, p.2.booking_id)) =
        l.map (fun p => (p.1, p.2.booking_id))) := by
  constructor
  · intro ops
    exact invariant_run ops [] (by simp)
  · intro lk l id st
    cases lk with
    | false => simp [status]
    | true =>
      rcases hg : getB l id with _ | b
      · simp [status, hg]
      · by_cases hs : b.status = some BookingStatus.Confirmed
        · simp [status, hg, hs, idMap_setStatusAt]
        · simp [status, hg, hs]

/-- Claim C9, witness: the invariant applied to the store produced by
one successful creation — the stored entry's id field matches its key
and its status is set. -/
theorem C9_witness :
    storedBooking.booking_id = some 1 ∧ storedBooking.status.isSome = true :=
  C9_store_invariant.1 [Op.opCreate true reqBooking] (1, storedBooking) (by decide)

/-- Claim C10: identity allocation is `(max + 1) % 2 ^ 32`.  Whenever
the current maximum id satisfies `max + 1 < 2 ^ 32`, the allocated id
is strictly greater than every existing key (so ids stay unique and
increasing); but when a booking with id `2 ^ 32 - 1` is the maximum,
the unguarded `u32` addition wraps and the allocator returns 0. -/
theorem C10_wraparound :
    (∀ l : BookingList, maxId l + 1 < UMAX → ∀ k, k ∈ keysOf l → k < nextId l) ∧
    (∀ l : BookingList, maxId l = UMAX - 1 → nextId l = 0) := by
  constructor
  · intro l h k hk
    have h1 := keys_le_maxId l k hk
    have h2 : nextId l = maxId l + 1 := by
      rw [nextId]
      exact Nat.mod_eq_of_lt h
    omega
  · intro l h
    rw [nextId, h]
    decide

/-- Claim C10, witness: on a store holding only id 1 the next id is
larger than 1; on a store holding only id `2 ^ 32 - 1` the next id
wraps to 0. -/
theorem C10_witness :
    (maxId [(1, fresh0)] + 1 < UMAX ∧ 1 < nextId [(1, fresh0)]) ∧
    (maxId [(UMAX - 1, fresh0)] = UMAX - 1 ∧ nextId [(UMAX - 1, fresh0)] = 0) := by
  refine ⟨⟨by decide, ?_⟩, ⟨by decide, ?_⟩⟩
  · exact C10_wraparound.1 [(1, fresh0)] (by decide) 1 (by decide)
  · exact C10_wraparound.2 [(UMAX - 1, fresh0)] (by decide)

theorem countSucc_replicate_fresh0 (n : Nat) :
    countSucc (List.replicate n fresh0) = n := by
  induction n with
  | zero => rfl
  | succ m ih =>
    rw [List.replicate_succ, countSucc_cons_pos fresh0 _ rfl rfl, ih]

/-- Claim C3, amended: for every batch of at most `2 ^ 32 - 1` accepted
creation requests starting from the empty store, the assigned ids are
exactly `1, 2, 3, …` in order — strictly increasing, unique, starting
at 1 (the allocator returns one plus the current maximum, the wrap at
`2 ^ 32` being unreachable below that bound). -/
theorem C3_sequential_ids (bs : List RoomBooking) (h : countSucc bs < UMAX) :
    (runCreates [] bs).1 = List.range' 1 (countSucc bs) ∧
    List.Pairwise (fun a b => a < b) (runCreates [] bs).1 ∧
    ((runCreates [] bs).1).Nodup ∧
    (0 < countSucc bs → ((runCreates [] bs).1).head? = some 1) := by
  have h0 : maxId ([] : BookingList) = 0 := rfl
  have hs := runCreates_spec bs [] (by rw [h0]; omega)
  have hids : (runCreates [] bs).1 = List.range' 1 (countSucc bs) := by
    have h1 := hs.1
    rw [h0] at h1
    simpa using h1
  refine ⟨hids, ?_, ?_, ?_⟩
  · rw [hids]
    exact List.pairwise_lt_range' 1 (countSucc bs)
  · rw [hids]
    exact (List.pairwise_lt_range' 1 (countSucc bs)).imp (fun hlt => Nat.ne_of_lt hlt)
  · intro hpos
    rw [hids]
    cases hc : countSucc bs with
    | zero => omega
    | succ m =>
      rw [List.range'_succ]
      rfl

/-- Claim C3, witness: two accepted creation requests on an empty store
receive ids `[1, 2]`. -/
theorem C3_witness :
    countSucc [fresh0, fresh0] < UMAX ∧
    (runCreates [] [fresh0, fresh0]).1 = List.range' 1 (countSucc [fresh0, fresh0]) :=
  ⟨by decide, (C3_sequential_ids [fresh0, fresh0] (by decide)).1⟩

/-- Claim C3, counterexample to the claim as stated: a sequence of
`2 ^ 32` creation requests from the empty store all succeed, but the
assigned ids are `1, …, 2 ^ 32 - 1` followed by a wrapped `0`, so the
ids of a sequence of successful creations are not strictly
increasing. -/
theorem runCreates_singleton_ok (l : BookingList) (b : RoomBooking)
    (h1 : b.booking_id = none) (h2 : b.status = none) :
    (runCreates l [b]).1 = [nextId l] := by
  have hok := create_ok_of_unset l b h1 h2
  simp [runCreates, hok, RoomBooking.set_booking_id, RoomBooking.set_status]

/-- Claim C3, counterexample to the claim as stated: a sequence of
`2 ^ 32` creation requests from the empty store all succeed, but the
assigned ids are `1, …, 2 ^ 32 - 1` followed by a wrapped `0`, so the
ids of a sequence of successful creations are not strictly
increasing. -/
theorem C3_counterexample :
    (runCreates [] (List.replicate UMAX fresh0)).1 = List.range' 1 (UMAX - 1) ++ [0] ∧
    ¬List.Pairwise (fun a b => a < b) (runCreates [] (List.replicate UMAX fresh0)).1 := by
  have hrep : List.replicate UMAX fresh0 = List.replicate 4294967295 fresh0 ++ [fresh0] := by
    rw [show UMAX = 4294967295 + 1 from rfl, List.replicate_succ']
  have hcnt : countSucc (List.replicate 4294967295 fresh0) = 4294967295 :=
    countSucc_replicate_fresh0 4294967295
  have hspec := runCreates_spec (List.replicate 4294967295 fresh0) [] (by
    rw [hcnt]
    decide)
  rw [hcnt] at hspec
  have hmax : maxId (runCreates [] (List.replicate 4294967295 fresh0)).2 = 4294967295 :=
    hspec.2.trans (by decide)
  have hnid : nextId (runCreates [] (List.replicate 4294967295 fresh0)).2 = 0 := by
    rw [nextId, hmax]
    decide
  have hlast : (runCreates (runCreates [] (List.replicate 4294967295 fresh0)).2 [fresh0]).1
      = [0] := by
    rw [runCreates_singleton_ok _ fresh0 rfl rfl, hnid]
  have happ := runCreates_append (List.replicate 4294967295 fresh0) [fresh0]
    ([] : BookingList)
  have hids1 : (runCreates [] (List.replicate 4294967295 fresh0)).1
      = List.range' 1 4294967295 := hspec.1
  have hall : (runCreates [] (List.replicate UMAX fresh0)).1
      = List.range' 1 4294967295 ++ [0] := by
    rw [hrep, happ, hids1, hlast]
  constructor
  · rw [hall, show UMAX - 1 = 4294967295 from rfl]
  · rw [hall]
    intro hp
    have h1mem : (1 : Nat) ∈ List.range' 1 4294967295 := by
      refine List.mem_range'.mpr ⟨0, by decide, by simp⟩
    have h0mem : (0 : Nat) ∈ ([0] : List Nat) := by simp
    have hlt := (List.pairwise_append.mp hp).2.2 1 h1mem 0 h0mem
    omega

end Booking
